import Mathlib

/-!
Shallow embedding of the `vct_terminal` web client (a React/JS dashboard for
Valorant esports betting analytics).  JavaScript values relevant to the claims
are modelled explicitly: numbers as an inductive with NaN and the two
infinities over exact rationals, generic values as an inductive covering
null, undefined, booleans, numbers and strings.  JSON payloads get their own
inductive.  Each embedded definition is translated from the corresponding
source function; comments name the source file.
-/

namespace VctTerminal

/-! ## JavaScript number and value model -/

/-- A JavaScript number: NaN, +Infinity, -Infinity, or a finite value
(modelled as an exact rational). -/
inductive JSNum where
  | nan
  | posInf
  | negInf
  | finite (q : ℚ)
deriving DecidableEq, Repr

/-- `Number.isFinite`. -/
def JSNum.isFinite : JSNum → Bool
  | .finite _ => true
  | _ => false

/-- The JavaScript comparison `x > 1` (false on NaN, true on +Infinity). -/
def JSNum.gtOne : JSNum → Bool
  | .nan => false
  | .posInf => true
  | .negInf => false
  | .finite q => decide (1 < q)

/-- A generic JavaScript value as it can reach the pure helpers:
null, undefined, boolean, number or string. -/
inductive JSVal where
  | null
  | undef
  | bool (b : Bool)
  | num (n : JSNum)
  | str (s : String)
deriving DecidableEq, Repr

/-- Decimal digits of the fractional part `0 ≤ q < 1`, with fuel
(JS numbers always have a finite decimal rendering; the fuel only
truncates rationals no JS float denotes). -/
def fracDigits : Nat → ℚ → String
  | 0, _ => ""
  | n + 1, q =>
    if q = 0 then ""
    else
      let q10 := q * 10
      toString (⌊q10⌋.toNat) ++ fracDigits n (q10 - ⌊q10⌋)

/-- Decimal string of a rational, in the style of JS `String(number)`
for the finite values claims exercise. -/
def ratToString (q : ℚ) : String :=
  let sign := if q < 0 then "-" else ""
  let m := |q|
  let fr := m - ⌊m⌋
  if fr = 0 then sign ++ toString ⌊m⌋.toNat
  else sign ++ toString ⌊m⌋.toNat ++ "." ++ fracDigits 64 fr

/-- `String(n)` for a JS number. -/
def JSNum.toDisplay : JSNum → String
  | .nan => "NaN"
  | .posInf => "Infinity"
  | .negInf => "-Infinity"
  | .finite q => ratToString q

/-- `String(v)` for a JS value. -/
def jsToString : JSVal → String
  | .null => "null"
  | .undef => "undefined"
  | .bool b => if b then "true" else "false"
  | .num n => n.toDisplay
  | .str s => s

/-! ## Character-list string operations

Lean's iterator-based `String` primitives (`trim`, `toLower`, `contains`,
`split`, `startsWith`, ...) are opaque to kernel reduction, so the embedding
uses list-based equivalents of the JS string operations throughout. -/

/-- `s.toLowerCase()` (ASCII case folding, which is all the sources need). -/
def toLowerStr (s : String) : String :=
  String.mk (s.toList.map Char.toLower)

/-- `s.includes(c)` for a single character. -/
def strContainsChar (s : String) (c : Char) : Bool :=
  s.toList.contains c

/-- `String.prototype.trim` (ASCII whitespace). -/
def jsTrim (s : String) : String :=
  String.mk (((s.toList.dropWhile Char.isWhitespace).reverse.dropWhile Char.isWhitespace).reverse)

/-- `s.startsWith(pre)`. -/
def strStarts (s pre : String) : Bool :=
  pre.toList.isPrefixOf s.toList

/-- `s.endsWith(suf)`. -/
def strEnds (s suf : String) : Bool :=
  suf.toList.isSuffixOf s.toList

/-- Accumulator loop behind `splitOnChar`. -/
def splitOnCharAux (sep : Char) : List Char → List Char → List String
  | acc, [] => [String.mk acc.reverse]
  | acc, c :: cs =>
    if c = sep then String.mk acc.reverse :: splitOnCharAux sep [] cs
    else splitOnCharAux sep (c :: acc) cs

/-- `s.split(sep)` for a one-character separator. -/
def splitOnChar (sep : Char) (s : String) : List String :=
  splitOnCharAux sep [] s.toList

/-- JS string comparison `a <= b` (code-unit lexicographic order). -/
def charListLe : List Char → List Char → Bool
  | [], _ => true
  | _ :: _, [] => false
  | c :: cs, d :: ds =>
    if c.toNat < d.toNat then true
    else if d.toNat < c.toNat then false
    else charListLe cs ds

/-- `a <= b` on strings, as JS `Array.prototype.sort` compares them. -/
def strLeB (a b : String) : Bool :=
  charListLe a.toList b.toList

/-- Insert into a sorted list of strings. -/
def insertSorted (x : String) : List String → List String
  | [] => [x]
  | y :: ys => if strLeB x y then x :: y :: ys else y :: insertSorted x ys

/-- `keys.sort()`: the default JS sort on strings.  (Sorting strings has a
unique result — duplicates are indistinguishable — so this insertion sort
agrees with whatever sort the engine uses.) -/
def sortStrings : List String → List String
  | [] => []
  | x :: xs => insertSorted x (sortStrings xs)

/-- UTF-8 bytes of a character. -/
def utf8Bytes (c : Char) : List Nat :=
  let n := c.toNat
  if n < 128 then [n]
  else if n < 2048 then [192 + n / 64, 128 + n % 64]
  else if n < 65536 then [224 + n / 4096, 128 + n / 64 % 64, 128 + n % 64]
  else [240 + n / 262144, 128 + n / 4096 % 64, 128 + n / 64 % 64, 128 + n % 64]

/-- Numeric value of a list of decimal digit characters. -/
def digitsToNat (ds : List Char) : Nat :=
  ds.foldl (fun a c => a * 10 + (c.toNat - 48)) 0

/-- Split a leading run of decimal digits from a character list. -/
def takeDigits : List Char → List Char × List Char
  | [] => ([], [])
  | c :: cs =>
    if c.isDigit then
      let p := takeDigits cs
      (c :: p.1, p.2)
    else ([], c :: cs)

/-- Parse a full string of decimal digits (at least one). -/
def parseAllDigits (cs : List Char) : Option Nat :=
  if cs.isEmpty then none
  else if cs.all Char.isDigit then some (digitsToNat cs) else none

/-- Parse an optional trailing exponent part `e`/`E` `[+-] digits`,
returning the exponent; the empty list means exponent 0.  `none` on junk. -/
def parseExpPart : List Char → Option ℤ
  | [] => some 0
  | c :: cs =>
    if c = 'e' ∨ c = 'E' then
      match cs with
      | [] => none
      | c2 :: cs2 =>
        if c2 = '+' then (parseAllDigits cs2).map Int.ofNat
        else if c2 = '-' then (parseAllDigits cs2).map (fun n => -(n : ℤ))
        else (parseAllDigits (c2 :: cs2)).map Int.ofNat
    else none

/-- Parse an unsigned JS decimal literal `digits [. digits] [exp]`
(at least one digit in the mantissa), consuming the whole input. -/
def parseUnsignedDec (cs : List Char) : Option ℚ :=
  let p := takeDigits cs
  match p.2 with
  | c :: r2 =>
    if c = '.' then
      let f := takeDigits r2
      if p.1.isEmpty ∧ f.1.isEmpty then none
      else
        (parseExpPart f.2).map fun e =>
          ((digitsToNat p.1 : ℚ) + (digitsToNat f.1 : ℚ) / (10 : ℚ) ^ f.1.length) * (10 : ℚ) ^ e
    else
      if p.1.isEmpty then none
      else (parseExpPart (c :: r2)).map fun e => (digitsToNat p.1 : ℚ) * (10 : ℚ) ^ e
  | [] => if p.1.isEmpty then none else some (digitsToNat p.1 : ℚ)

/-- Digit value of a hexadecimal character. -/
def hexDigitVal (c : Char) : Option Nat :=
  if c.isDigit then some (c.toNat - 48)
  else if 97 ≤ c.toNat ∧ c.toNat ≤ 102 then some (c.toNat - 87)
  else if 65 ≤ c.toNat ∧ c.toNat ≤ 70 then some (c.toNat - 55)
  else none

/-- Parse digits in a given radix (2, 8 or 16), whole input, at least one. -/
def parseRadixDigits (radix : Nat) (cs : List Char) : Option Nat :=
  if cs.isEmpty then none
  else
    cs.foldl
      (fun acc c =>
        match acc, hexDigitVal c with
        | some a, some d => if d < radix then some (a * radix + d) else none
        | _, _ => none)
      (some 0)

/-- `Number(string)`: trimmed; empty string is 0; Infinity literals;
`0x`/`0o`/`0b` prefixes; otherwise a signed decimal literal; NaN on junk. -/
def jsStringToNumber (s : String) : JSNum :=
  let t := jsTrim s
  if t = "" then .finite 0
  else if t = "Infinity" ∨ t = "+Infinity" then .posInf
  else if t = "-Infinity" then .negInf
  else
    match t.toList with
    | '0' :: x :: rest =>
      if x = 'x' ∨ x = 'X' then
        match parseRadixDigits 16 rest with
        | some n => .finite (n : ℚ)
        | none => .nan
      else if x = 'o' ∨ x = 'O' then
        match parseRadixDigits 8 rest with
        | some n => .finite (n : ℚ)
        | none => .nan
      else if x = 'b' ∨ x = 'B' then
        match parseRadixDigits 2 rest with
        | some n => .finite (n : ℚ)
        | none => .nan
      else
        match parseUnsignedDec ('0' :: x :: rest) with
        | some q => .finite q
        | none => .nan
    | '+' :: rest =>
      match parseUnsignedDec rest with
      | some q => .finite q
      | none => .nan
    | '-' :: rest =>
      match parseUnsignedDec rest with
      | some q => .finite (-q)
      | none => .nan
    | cs =>
      match parseUnsignedDec cs with
      | some q => .finite q
      | none => .nan

/-- `Number(v)` for a JS value. -/
def jsToNumber : JSVal → JSNum
  | .null => .finite 0
  | .undef => .nan
  | .bool b => .finite (if b then 1 else 0)
  | .num n => n
  | .str s => jsStringToNumber s

/-- JS truthiness of a value. -/
def jsTruthy : JSVal → Bool
  | .null => false
  | .undef => false
  | .bool b => b
  | .num .nan => false
  | .num (.finite q) => decide (q ≠ 0)
  | .num _ => true
  | .str s => decide (s ≠ "")

/-! ## `toFixed` rounding

`Number.prototype.toFixed(d)` renders the sign of `x`, then the integer `n`
nearest to `|x| * 10^d`, ties to the larger `n`.  `roundFixed` is the numeric
value of that string (as recovered by `Number(...)`), `fixedString` the
string itself. -/

/-- Numeric value of `x.toFixed(d)` for a finite `x`. -/
def roundFixed (q : ℚ) (d : Nat) : ℚ :=
  let sign : ℚ := if q < 0 then -1 else 1
  sign * ((⌊|q| * (10 : ℚ) ^ d + 1 / 2⌋ : ℚ) / (10 : ℚ) ^ d)

/-- Left-pad a string with zeros to length `n`. -/
def padZeros (s : String) (n : Nat) : String :=
  String.mk (List.replicate (n - s.length) '0') ++ s

/-- The string `x.toFixed(d)` for a finite `x`. -/
def fixedString (q : ℚ) (d : Nat) : String :=
  let sign := if q < 0 then "-" else ""
  let n := (⌊|q| * (10 : ℚ) ^ d + 1 / 2⌋).toNat
  if d = 0 then sign ++ toString n
  else sign ++ toString (n / 10 ^ d) ++ "." ++ padZeros (toString (n % 10 ^ d)) d

/-- `n.toFixed(d)` for a JS number (NaN and infinities render as their names). -/
def JSNum.toFixed : JSNum → Nat → String
  | .nan, _ => "NaN"
  | .posInf, _ => "Infinity"
  | .negInf, _ => "-Infinity"
  | .finite q, d => fixedString q d

/-! ## Pure formatting helpers (`src/unnamed/part_004`, `formatBo` module) -/

/-- `formatBoType(boType)`: source tests `boType == null || boType === ''`
(loose equality with null matching exactly null and undefined), then searches
the lowercased string form for the characters 5 and 3. -/
def formatBoType (boType : JSVal) : String :=
  if boType = .null ∨ boType = .undef ∨ boType = .str "" then "Bo?"
  else
    let s := toLowerStr (jsToString boType)
    if strContainsChar s '5' then "Bo5"
    else if strContainsChar s '3' then "Bo3"
    else "Bo?"

/-- `resolveBoType(boType, score1, score2)` from the source: prefer the API
label; otherwise infer from `Number(score1) + Number(score2)`. -/
def resolveBoType (boType score1 score2 : JSVal) : String :=
  let fromApi := formatBoType boType
  if fromApi ≠ "Bo?" then fromApi
  else
    match jsToNumber score1, jsToNumber score2 with
    | .finite s1, .finite s2 => if s1 + s2 > 3 then "Bo5" else "Bo3"
    | _, _ => "Bo?"

/-- `BO3_ORDER` constant. -/
def BO3_ORDER : List String := ["2-0", "2-1", "1-2", "0-2"]

/-- `BO5_ORDER` constant. -/
def BO5_ORDER : List String := ["3-0", "3-1", "3-2", "2-3", "1-3", "0-3"]

/-- A `scoreProbs` object: keys in insertion order, each value a finite
number or null.  `none` at the outer level models a missing / null /
non-object argument (the source's `!scoreProbs || typeof scoreProbs !==
'object'` guard); `none` as a value collapses JS null and undefined, which
the source treats alike (`!= null`, `?? 0`). -/
abbrev ScoreProbs := List (String × Option ℚ)

/-- `scoreProbs[k]`, with absent and null collapsed to `none`. -/
def objLookup (entries : ScoreProbs) (k : String) : Option ℚ :=
  match entries.find? (fun e => e.1 == k) with
  | some e => e.2
  | none => none

/-- `inferSeriesFormatFromScoreProbs(scoreProbs)`. -/
def inferSeriesFormatFromScoreProbs (scoreProbs : Option ScoreProbs) : String :=
  match scoreProbs with
  | none => "Bo3"
  | some entries =>
    let keys := entries.map Prod.fst
    let hasThree := keys.any fun k => strStarts k "3-" || strEnds k "-3"
    if hasThree then "Bo5" else "Bo3"

/-- One bar of the score-probability chart. -/
structure ChartPoint where
  score : String
  probability : ℚ
deriving DecidableEq, Repr

/-- `seriesChartData(scoreProbs, format)`: canonical scorelines with
non-null values first, then the remaining keys sorted; probabilities are
`Number(((scoreProbs[score] ?? 0) * 100).toFixed(2))`. -/
def seriesChartData (scoreProbs : Option ScoreProbs) (format : String) : List ChartPoint :=
  match scoreProbs with
  | none => []
  | some entries =>
    let order := if format = "Bo5" then BO5_ORDER else BO3_ORDER
    let ordered := order.filter fun s => (objLookup entries s).isSome
    let rest :=
      sortStrings ((entries.map Prod.fst).filter fun s => !order.contains s)
    let allKeys := ordered ++ rest
    allKeys.map fun score =>
      { score := score
        probability := roundFixed (((objLookup entries score).getD 0) * 100) 2 }

/-! ## JSON values and `JSON.stringify` -/

/-- A decoded JSON value (what `response.json()` can produce). -/
inductive JVal where
  | jnull
  | jbool (b : Bool)
  | jnum (q : ℚ)
  | jstr (s : String)
  | jarr (xs : List JVal)
  | jobj (fields : List (String × JVal))

/-- Property access `v?.k`: `none` models JS `undefined` (missing key, or a
non-object receiver, including null). -/
def jvGet : JVal → String → Option JVal
  | .jobj fields, k => (fields.find? (fun f => f.1 == k)).map Prod.snd
  | _, _ => none

/-- JS truthiness of an optional JSON value (`none` = undefined). -/
def jvTruthy : Option JVal → Bool
  | none => false
  | some .jnull => false
  | some (.jbool b) => b
  | some (.jnum q) => decide (q ≠ 0)
  | some (.jstr s) => decide (s ≠ "")
  | some (.jarr _) => true
  | some (.jobj _) => true

/-- JSON string escaping of one character. -/
def escapeJsonChar (c : Char) : String :=
  if c = '"' then "\\\""
  else if c = '\\' then "\\\\"
  else if c = '\n' then "\\n"
  else if c = '\r' then "\\r"
  else if c = '\t' then "\\t"
  else if c.toNat < 32 then
    "\\u" ++ padZeros (Nat.toDigits 16 c.toNat |> String.mk) 4
  else String.singleton c

/-- JSON string literal. -/
def jsonQuote (s : String) : String :=
  "\"" ++ String.join (s.toList.map escapeJsonChar) ++ "\""

mutual

/-- `JSON.stringify` of a JSON value. -/
def jsonStringify : JVal → String
  | .jnull => "null"
  | .jbool b => if b then "true" else "false"
  | .jnum q => ratToString q
  | .jstr s => jsonQuote s
  | .jarr xs => "[" ++ String.intercalate "," (jsonStringifyList xs) ++ "]"
  | .jobj fs => "\x7b" ++ String.intercalate "," (jsonStringifyFields fs) ++ "\x7d"

/-- Stringified elements of an array. -/
def jsonStringifyList : List JVal → List String
  | [] => []
  | v :: vs => jsonStringify v :: jsonStringifyList vs

/-- Stringified `"key":value` pairs of an object. -/
def jsonStringifyFields : List (String × JVal) → List String
  | [] => []
  | f :: fs => (jsonQuote f.1 ++ ":" ++ jsonStringify f.2) :: jsonStringifyFields fs

end

/-! ## The API client `request` (`src/unnamed/part_004`, api module) -/

/-- `REQUEST_TIMEOUT_MS` constant. -/
def REQUEST_TIMEOUT_MS : Nat := 30000

/-- The Portuguese message `request` substitutes for an `AbortError`. -/
def timeoutMsg : String :=
  "A requisição passou do tempo limite (30s). Verifique se a API está rodando na porta 8000 e se o servidor não travou."

/-- Fetch options: HTTP method and optional serialized body. -/
structure ReqOptions where
  method : String
  body : Option String
deriving DecidableEq, Repr

/-- The default options (`GET`, no body). -/
def defaultOpts : ReqOptions := ⟨"GET", none⟩

/-- How one `fetch` settles: a rejection (carrying the error's `name` and
`message`), or a response with `ok`, `status`, the `content-type` header,
and the body's JSON decoding (`Except.error` models `response.json()`
rejecting with a SyntaxError). -/
inductive FetchOutcome where
  | fetchRejected (name : String) (message : String)
  | response (ok : Bool) (status : Nat) (contentType : Option String) (body : Except String JVal)

/-- Substring test used for
`response.headers.get('content-type')?.includes('application/json')`. -/
def subOccurs (needle : List Char) : List Char → Bool
  | [] => needle.isEmpty
  | c :: t => needle.isPrefixOf (c :: t) || subOccurs needle t

/-- Whether the content-type header marks the body as JSON (a missing header
gives undefined, which is falsy). -/
def ctIsJson : Option String → Bool
  | none => false
  | some s => subOccurs "application/json".toList s.toList

/-- `payload?.detail || payload?.error || `Request failed (${status})``
followed by `typeof message === 'string' ? message : JSON.stringify(message)`. -/
def httpErrorMessage (payload : JVal) (status : Nat) : String :=
  let detail := jvGet payload "detail"
  let errField := jvGet payload "error"
  let chosen : Option JVal :=
    if jvTruthy detail then detail
    else if jvTruthy errField then errField
    else none
  match chosen with
  | some (.jstr s) => s
  | some v => jsonStringify v
  | none => "Request failed (" ++ toString status ++ ")"

/-- What `request` does with its settled fetch: returns the payload,
or throws.  The four constructors are the four ways the source's promise
settles. -/
inductive RequestResult where
  | success (payload : JVal)
  | timeoutError (msg : String)
  | httpError (msg : String) (status : Nat) (payload : JVal)
  | thrown (name : String) (msg : String)

/-- `request(path, options)` from the source, as a function of how the single
`fetch` call settles (`path` and `options` feed that fetch, which the model
abstracts into `outcome`).  The catch block replaces an `AbortError` with the
fixed timeout message and rethrows everything else; the constructed HTTP
error (name "Error") passes through it unchanged. -/
def request (_path : String) (_opts : ReqOptions) (outcome : FetchOutcome) : RequestResult :=
  match outcome with
  | .fetchRejected name msg =>
    if name = "AbortError" then .timeoutError timeoutMsg
    else .thrown name msg
  | .response ok status contentType body =>
    if ctIsJson contentType then
      match body with
      | .error e => .thrown "SyntaxError" e
      | .ok payload =>
        if ok then .success payload
        else .httpError (httpErrorMessage payload status) status payload
    else
      if ok then .success .jnull
      else .httpError (httpErrorMessage .jnull status) status .jnull

/-- The `AbortController` race: the source arms `setTimeout(() =>
controller.abort(), REQUEST_TIMEOUT_MS)` before the fetch and clears it as
soon as the fetch settles, so a fetch settling after the deadline is seen as
an `AbortError` rejection. -/
def fetchRace (settleAtMs : Nat) (settled : FetchOutcome) : FetchOutcome :=
  if settleAtMs > REQUEST_TIMEOUT_MS then
    .fetchRejected "AbortError" "The operation was aborted."
  else settled

/-- Did `request` return normally? -/
def RequestResult.isSuccess : RequestResult → Bool
  | .success _ => true
  | _ => false

/-- `err.message` of a failed result (the `throw`n error's message). -/
def RequestResult.errMessage : RequestResult → String
  | .success _ => ""
  | .timeoutError m => m
  | .httpError m _ _ => m
  | .thrown _ m => m

/-- A settled fetch that makes `request` return normally: an `ok` response
whose body decodes when the content type is JSON. -/
def FetchOutcome.isCleanOk : FetchOutcome → Bool
  | .fetchRejected _ _ => false
  | .response ok _ ct body => ok && (!ctIsJson ct || body.isOk)

/-! ## URL building (`URLSearchParams`, `encodeURIComponent`) -/

/-- Uppercase hexadecimal digit. -/
def hexDigit (n : Nat) : Char :=
  if n < 10 then Char.ofNat (48 + n) else Char.ofNat (55 + n)

/-- `%HH` encoding of one byte. -/
def percentEncodeByte (b : Nat) : String :=
  String.mk ['%', hexDigit (b / 16), hexDigit (b % 16)]

/-- Characters `encodeURIComponent` leaves unescaped besides alphanumerics
(the apostrophe, code 39, is also unescaped). -/
def isUriUnreserved (c : Char) : Bool :=
  c.isAlphanum || ['-', '_', '.', '!', '~', '*', '(', ')'].contains c || c.toNat = 39

/-- `encodeURIComponent`: UTF-8 percent-encoding of everything reserved. -/
def encodeURIComponent (s : String) : String :=
  s.toList.foldl
    (fun acc c =>
      if isUriUnreserved c then acc ++ String.singleton c
      else acc ++ String.join ((utf8Bytes c).map percentEncodeByte))
    ""

/-- Characters the `application/x-www-form-urlencoded` serializer keeps. -/
def isFormUnreserved (c : Char) : Bool :=
  c.isAlphanum || ['*', '-', '.', '_'].contains c

/-- Form encoding used by `URLSearchParams.toString` (space becomes `+`). -/
def formEncode (s : String) : String :=
  s.toList.foldl
    (fun acc c =>
      if isFormUnreserved c then acc ++ String.singleton c
      else if c = ' ' then acc ++ "+"
      else acc ++ String.join ((utf8Bytes c).map percentEncodeByte))
    ""

/-- A `URLSearchParams` value: key/value pairs in order. -/
abbrev SearchParams := List (String × String)

/-- `URLSearchParams.set`: update the first pair with the key and drop any
later ones, or append. -/
def spSet : SearchParams → String → String → SearchParams
  | [], k, v => [(k, v)]
  | p :: ps, k, v =>
    if p.1 == k then (k, v) :: ps.filter (fun q => q.1 != k)
    else p :: spSet ps k v

/-- `URLSearchParams.append`. -/
def spAppend (ps : SearchParams) (k v : String) : SearchParams :=
  ps ++ [(k, v)]

/-- `URLSearchParams.toString`. -/
def spToString (ps : SearchParams) : String :=
  String.intercalate "&" (ps.map fun p => formEncode p.1 ++ "=" ++ formEncode p.2)

/-- Append `?query` when the serialized params are non-empty. -/
def withQuery (base : String) (ps : SearchParams) : String :=
  let query := spToString ps
  base ++ (if query = "" then "" else "?" ++ query)

/-! ## The `api` endpoint functions (`src/unnamed/part_004`)

Each endpoint computes the path and options it hands to `request`; the
common behavior of the single `request` they all delegate to is the subject
of the error-handling claims. -/

/-- The path/options pair an endpoint passes to `request`. -/
structure ApiRequest where
  path : String
  opts : ReqOptions
deriving DecidableEq, Repr

/-- Run an endpoint's request against a settled fetch. -/
def runRequest (r : ApiRequest) (outcome : FetchOutcome) : RequestResult :=
  request r.path r.opts outcome

/-- Truthiness of an optional string parameter (`none` = undefined). -/
def optTruthy : Option String → Bool
  | none => false
  | some s => s != ""

namespace api

/-- Parameters of `api.getEvents`. -/
structure EventsParams where
  fromYear : Option Int

/-- `api.getEvents(params)`. -/
def getEvents (params : EventsParams) : ApiRequest :=
  let search : SearchParams :=
    match params.fromYear with
    | some y => spSet [] "from_year" (toString y)
    | none => []
  ⟨withQuery "/api/events" search, defaultOpts⟩

/-- `api.getTeams(region)`. -/
def getTeams (region : Option String) : ApiRequest :=
  let q :=
    match region with
    | some r => if r ≠ "" ∧ r ≠ "all" then "?region=" ++ encodeURIComponent r else ""
    | none => ""
  ⟨"/api/teams" ++ q, defaultOpts⟩

/-- `api.getMaps()`. -/
def getMaps : ApiRequest := ⟨"/api/maps", defaultOpts⟩

/-- `api.getMarkets()`. -/
def getMarkets : ApiRequest := ⟨"/api/markets", defaultOpts⟩

/-- Parameters of `api.getMatches`. -/
structure MatchesParams where
  eventIds : Option (List Int)
  status : Option String
  dateFrom : Option String
  dateTo : Option String
  fromYear : Option Int
  limit : Option Nat

/-- `api.getMatches(params)`. -/
def getMatches (params : MatchesParams) : ApiRequest :=
  let s0 : SearchParams := []
  let s1 :=
    match params.eventIds with
    | some ids => ids.foldl (fun acc id => spAppend acc "event_id" (toString id)) s0
    | none => s0
  let s2 := if optTruthy params.status then spSet s1 "status" (params.status.getD "") else s1
  let s3 := if optTruthy params.dateFrom then spSet s2 "date_from" (params.dateFrom.getD "") else s2
  let s4 := if optTruthy params.dateTo then spSet s3 "date_to" (params.dateTo.getD "") else s3
  let s5 :=
    match params.fromYear with
    | some y => spSet s4 "from_year" (toString y)
    | none => s4
  let s6 :=
    match params.limit with
    | some n => if n ≠ 0 then spSet s5 "limit" (toString n) else s5
    | none => s5
  ⟨withQuery "/api/matches" s6, defaultOpts⟩

/-- `api.getMatch(matchId)` (ids reach the template already stringified). -/
def getMatch (matchId : String) : ApiRequest :=
  ⟨"/api/matches/" ++ matchId, defaultOpts⟩

/-- `api.getMatchAnalysis(matchId)`. -/
def getMatchAnalysis (matchId : String) : ApiRequest :=
  ⟨"/api/matches/" ++ matchId ++ "/analysis", defaultOpts⟩

/-- Parameters of `api.getCrossMatchParlays`. -/
structure ParlayParams where
  dateFrom : Option String
  dateTo : Option String
  maxLegs : Option Int

/-- `api.getCrossMatchParlays(params)`. -/
def getCrossMatchParlays (params : ParlayParams) : ApiRequest :=
  let s0 : SearchParams := []
  let s1 := if optTruthy params.dateFrom then spSet s0 "date_from" (params.dateFrom.getD "") else s0
  let s2 := if optTruthy params.dateTo then spSet s1 "date_to" (params.dateTo.getD "") else s1
  let s3 :=
    match params.maxLegs with
    | some n => spSet s2 "max_legs" (toString n)
    | none => s2
  ⟨withQuery "/api/analysis/cross-match-parlays" s3, defaultOpts⟩

/-- `api.saveVeto(matchId, body)`. -/
def saveVeto (matchId : String) (body : JVal) : ApiRequest :=
  ⟨"/api/matches/" ++ matchId ++ "/veto", ⟨"POST", some (jsonStringify body)⟩⟩

/-- `api.saveOdds(matchId, body)`. -/
def saveOdds (matchId : String) (body : JVal) : ApiRequest :=
  ⟨"/api/matches/" ++ matchId ++ "/odds", ⟨"POST", some (jsonStringify body)⟩⟩

/-- `api.getOdds(matchId, latestOnly)`. -/
def getOdds (matchId : String) (latestOnly : Bool) : ApiRequest :=
  ⟨"/api/matches/" ++ matchId ++ "/odds?latest_only=" ++ (if latestOnly then "true" else "false"),
    defaultOpts⟩

/-- `api.autoOdds(matchId, force)`. -/
def autoOdds (matchId : String) (force : Bool) : ApiRequest :=
  ⟨"/api/matches/" ++ matchId ++ "/odds/auto",
    ⟨"POST", some (jsonStringify (.jobj [("force", .jbool force)]))⟩⟩

/-- `api.getTeamStats(teamId, mapName)`. -/
def getTeamStats (teamId : String) (mapName : Option String) : ApiRequest :=
  let q :=
    if optTruthy mapName then "?map_name=" ++ encodeURIComponent (mapName.getD "") else ""
  ⟨"/api/stats/team/" ++ teamId ++ q, defaultOpts⟩

/-- `api.statsQuery(q)`. -/
def statsQuery (q : String) : ApiRequest :=
  ⟨"/api/stats/query?q=" ++ encodeURIComponent q, defaultOpts⟩

/-- `api.statsH2h(a, b, mapName)`. -/
def statsH2h (a b : String) (mapName : Option String) : ApiRequest :=
  let s0 : SearchParams := [("a", a), ("b", b)]
  let s1 := if optTruthy mapName then spSet s0 "map_name" (mapName.getD "") else s0
  ⟨"/api/stats/h2h?" ++ spToString s1, defaultOpts⟩

/-- `api.saveLiveMapResult(matchId, body)`. -/
def saveLiveMapResult (matchId : String) (body : JVal) : ApiRequest :=
  ⟨"/api/matches/" ++ matchId ++ "/live/map-result", ⟨"POST", some (jsonStringify body)⟩⟩

/-- `api.getLiveSeriesProb(matchId)`. -/
def getLiveSeriesProb (matchId : String) : ApiRequest :=
  ⟨"/api/matches/" ++ matchId ++ "/live/series-prob", defaultOpts⟩

/-- `api.getConfig()`. -/
def getConfig : ApiRequest := ⟨"/api/config", defaultOpts⟩

/-- `api.updateConfig(body)`. -/
def updateConfig (body : JVal) : ApiRequest :=
  ⟨"/api/config", ⟨"PUT", some (jsonStringify body)⟩⟩

/-- `api.sync(body)` (`body || {}`). -/
def sync (body : Option JVal) : ApiRequest :=
  ⟨"/api/sync", ⟨"POST", some (jsonStringify (match body with
    | some b => if jvTruthy (some b) then b else .jobj []
    | none => .jobj []))⟩⟩

/-- `api.hedge(stake, odds, hedgeOdds, lockProfit)`. -/
def hedge (stake odds hedgeOdds : ℚ) (lockProfit : Bool) : ApiRequest :=
  ⟨"/api/hedge?stake=" ++ ratToString stake ++ "&odds=" ++ ratToString odds ++
      "&hedge_odds=" ++ ratToString hedgeOdds ++ "&lock_profit=" ++
      (if lockProfit then "true" else "false"),
    defaultOpts⟩

end api

/-! ## `DashboardPage.loadData` (`src/unnamed/part_005`) -/

/-- The dashboard state the load path touches (`matchList` embeds the
source's `matches` state; `matches` is reserved in Lean). -/
structure DashState where
  events : JVal
  config : Option JVal
  matchList : JVal
  loading : Bool
  error : String

/-- `Array.isArray(res) ? res : (res?.items ?? [])`. -/
def listOrItems (v : JVal) : JVal :=
  match v with
  | .jarr xs => .jarr xs
  | _ =>
    match jvGet v "items" with
    | some .jnull => .jarr []
    | some w => w
    | none => .jarr []

/-- The payload of a successful result. -/
def RequestResult.payloadOf : RequestResult → Option JVal
  | .success p => some p
  | _ => none

/-- The error `Promise.all` rejects with: in the model, the first failing
result in array order (the real pick is the first rejection in time; the
dashboard claims only depend on some failure's message being used). -/
def firstFailure (rs : List RequestResult) : Option RequestResult :=
  rs.find? fun r => !r.isSuccess

/-- `DashboardPage.loadData`, as a function of the three settled requests
(`api.getEvents`, `api.getConfig`, `api.getMatches` in that order):
`setLoading(true)`/`setError('')` up front, the `.then` branch on success,
the `.catch` branch on failure, and the `.finally` clearing of `loading`. -/
def loadData (eventsRes configRes matchesRes : RequestResult) (s : DashState) : DashState :=
  let s1 : DashState := { s with loading := true, error := "" }
  match eventsRes.payloadOf, configRes.payloadOf, matchesRes.payloadOf with
  | some ev, some cf, some ms =>
    { s1 with
      events := listOrItems ev
      config := some cf
      matchList := listOrItems ms
      loading := false }
  | _, _, _ =>
    let msg :=
      match firstFailure [eventsRes, configRes, matchesRes] with
      | some err => err.errMessage
      | none => ""
    { s1 with
      error := if msg = "" then "Erro ao carregar" else msg
      events := .jarr []
      matchList := .jarr []
      loading := false }

/-! ## `AnalysisPanel` (`src/unnamed/part_002`) -/

/-- `pct(value)` from the source:
```${(Number(value || 0) * 100).toFixed(1)}%```. -/
def pct (value : JSVal) : String :=
  let base := if jsTruthy value then value else .num (.finite 0)
  (match jsToNumber base with
    | .nan => JSNum.nan
    | .posInf => JSNum.posInf
    | .negInf => JSNum.negInf
    | .finite q => JSNum.finite (q * 100)).toFixed 1 ++ "%"

/-- One element of the backend's `single_edges` array, with the numeric
fields as raw JS values (possibly null or missing, modelled by
`JSVal.null` / `JSVal.undef`). -/
structure SingleEdge where
  market : String
  selection : String
  bookmaker : String
  map_number : JSVal
  odds : JSVal
  p_impl : JSVal
  p_model : JSVal
  edge : JSVal
  recommendation : String
  suggested_stake : JSVal

/-- The text of one rendered row of the edges table. -/
structure EdgeRow where
  market : String
  selection : String
  bookmaker : String
  odds : String
  pImpl : String
  pModel : String
  edgePct : String
  recommendation : String
  stake : String

/-- The edges-table row `AnalysisPanel` renders for one entry. -/
def edgeRow (e : SingleEdge) : EdgeRow :=
  { market := e.market ++ (if jsTruthy e.map_number then " M" ++ jsToString e.map_number else "")
    selection := e.selection
    bookmaker := e.bookmaker
    odds := (jsToNumber e.odds).toFixed 2
    pImpl := pct e.p_impl
    pModel := pct e.p_model
    edgePct := pct e.edge
    recommendation := e.recommendation
    stake := "R$" ++
      (jsToNumber (if jsTruthy e.suggested_stake then e.suggested_stake else .num (.finite 0))).toFixed 2 }

/-! ## `OddsForm` (`src/web/src/components/OddsForm.jsx`) -/

/-- One odds entry the form submits (`map_number` is null or a number). -/
structure OddsEntry where
  bookmaker : String
  market_type : String
  selection : String
  odds_value : JSNum
  map_number : Option ℚ
deriving DecidableEq, Repr

/-- `BOOKMAKERS` constant. -/
def BOOKMAKERS : List String := ["betano", "bet365"]

/-- Accumulator loop collecting maximal non-whitespace runs. -/
def wsRunsAux : List Char → List Char → List String
  | acc, [] => if acc.isEmpty then [] else [String.mk acc.reverse]
  | acc, c :: cs =>
    if c.isWhitespace then
      if acc.isEmpty then wsRunsAux [] cs else String.mk acc.reverse :: wsRunsAux [] cs
    else wsRunsAux (c :: acc) cs

/-- `line.split(/\s+/)`: the runs of non-whitespace characters, with a
leading empty token when the string opens with whitespace (as the JS regex
split produces), and `[""]` on the empty string. -/
def jsSplitWs (s : String) : List String :=
  if s = "" then [""]
  else
    match s.toList with
    | c :: cs => if c.isWhitespace then "" :: wsRunsAux [] (c :: cs) else wsRunsAux [] (c :: cs)
    | [] => []

/-- The lines of the batch text: newlines replaced by `;`, split on `;`,
trimmed, empties dropped. -/
def parseBatchLines (batchText : String) : List String :=
  (((splitOnChar ';' (String.mk (batchText.toList.map fun c => if c = '\n' then ';' else c))).map
    jsTrim).filter fun l => l != "")

/-- One iteration of the `parseBatch` loop: `none` when the line is skipped
(`continue`). -/
def parseBatchLine (line : String) : Option OddsEntry :=
  let tokens := jsSplitWs line
  if tokens.length < 4 then none
  else
    let bookmaker := toLowerStr (tokens.headD "")
    let market_type := toLowerStr ((tokens.drop 1).headD "")
    let selection := " ".intercalate ((tokens.drop 2).dropLast)
    let odds_value := jsStringToNumber (tokens.getLastD "")
    if !odds_value.isFinite || !odds_value.gtOne then none
    else
      let mapDigits := market_type.toList.filter Char.isDigit
      some
        { bookmaker := bookmaker
          market_type := market_type
          selection := selection
          odds_value := odds_value
          map_number :=
            if mapDigits.isEmpty then none else some (digitsToNat mapDigits : ℚ) }

/-- `parseBatch(batchText)`. -/
def parseBatch (batchText : String) : List OddsEntry :=
  (parseBatchLines batchText).filterMap parseBatchLine

/-- One entry of the form's `mapList`. -/
structure MapSlot where
  map_order : Nat
  map_name : String

/-- `Number(values[key])` for a form field (`values` maps field keys to the
typed text; an untouched field is undefined). -/
def fieldNum (values : String → Option String) (key : String) : JSNum :=
  jsToNumber (match values key with
    | some s => .str s
    | none => .undef)

/-- `collectStructuredEntries()` from the source: every input that parses to
a JS number `> 1` becomes an entry (series winner per bookmaker, then the
six per-map markets per bookmaker). -/
def collectStructuredEntries (values : String → Option String) (teamA teamB : String)
    (mapList : List MapSlot) : List OddsEntry :=
  let mwEntries := BOOKMAKERS.flatMap fun book =>
    let mwA := fieldNum values ("match_winner_" ++ book ++ "_a")
    let mwB := fieldNum values ("match_winner_" ++ book ++ "_b")
    (if mwA.gtOne then [⟨book, "match_winner", teamA, mwA, none⟩] else []) ++
      (if mwB.gtOne then [⟨book, "match_winner", teamB, mwB, none⟩] else [])
  let mapEntries := mapList.flatMap fun map =>
    let n := toString map.map_order
    BOOKMAKERS.flatMap fun book =>
      let winnerA := fieldNum values ("map" ++ n ++ "_winner_" ++ book ++ "_a")
      let winnerB := fieldNum values ("map" ++ n ++ "_winner_" ++ book ++ "_b")
      let otYes := fieldNum values ("map" ++ n ++ "_ot_" ++ book)
      let handicap := fieldNum values ("map" ++ n ++ "_handicap_" ++ book)
      let total := fieldNum values ("map" ++ n ++ "_total_rounds_" ++ book)
      let pistol := fieldNum values ("map" ++ n ++ "_pistol_" ++ book)
      let mapNum : Option ℚ := some (map.map_order : ℚ)
      (if winnerA.gtOne then [⟨book, "map" ++ n ++ "_winner", teamA, winnerA, mapNum⟩] else []) ++
        (if winnerB.gtOne then [⟨book, "map" ++ n ++ "_winner", teamB, winnerB, mapNum⟩] else []) ++
        (if otYes.gtOne then [⟨book, "map" ++ n ++ "_ot", "Yes", otYes, mapNum⟩] else []) ++
        (if handicap.gtOne then
          [⟨book, "map" ++ n ++ "_handicap", teamA ++ " -2.5", handicap, mapNum⟩] else []) ++
        (if total.gtOne then
          [⟨book, "map" ++ n ++ "_total_rounds", "Over 24.5", total, mapNum⟩] else []) ++
        (if pistol.gtOne then [⟨book, "map" ++ n ++ "_pistol_1h", teamA, pistol, mapNum⟩] else [])
  mwEntries ++ mapEntries

/-- What a save handler does: call `api.saveOdds`, or short-circuit into the
error message without any API call. -/
inductive SaveAction where
  | callSaveOdds (matchId : String) (entries : List OddsEntry)
  | showError (msg : String)
deriving DecidableEq, Repr

/-- `saveStructured()` up to the API call: throw (and display) when no entry
qualified, otherwise call `api.saveOdds` with the collected entries. -/
def saveStructured (matchId : String) (values : String → Option String) (teamA teamB : String)
    (mapList : List MapSlot) : SaveAction :=
  let entries := collectStructuredEntries values teamA teamB mapList
  if entries.isEmpty then .showError "Preencha pelo menos uma odd valida."
  else .callSaveOdds matchId entries

/-- `saveBatch()` up to the API call. -/
def saveBatch (matchId : String) (batchText : String) : SaveAction :=
  let entries := parseBatch batchText
  if entries.isEmpty then .showError "Nenhuma odd valida no batch paste."
  else .callSaveOdds matchId entries

/-! ## `StatsResult.renderMarkdownLines` (`src/web/src/components/StatsResult.jsx`) -/

/-- A chunk of a rendered bullet line: plain text or `<strong>` text. -/
inductive MdPart where
  | text (s : String)
  | strong (s : String)
deriving DecidableEq, Repr

/-- The element rendered for one line. -/
inductive MdNode where
  | h3 (s : String)
  | h2 (s : String)
  | bullet (parts : List MdPart)
  | br
  | p (s : String)
deriving DecidableEq, Repr

/-- `remaining.indexOf('**')`. -/
def starIdx : List Char → Option Nat
  | [] => none
  | c :: rest =>
    match rest with
    | [] => none
    | c2 :: _ => if c = '*' ∧ c2 = '*' then some 0 else (starIdx rest).map Nat.succ

/-- An index returned by `starIdx` leaves room for the two stars. -/
theorem starIdx_bound (cs : List Char) : ∀ i, starIdx cs = some i → i + 2 ≤ cs.length := by
  induction cs with
  | nil => intro i h; simp [starIdx] at h
  | cons c rest ih =>
    intro i h
    cases rest with
    | nil => simp [starIdx] at h
    | cons c2 rest2 =>
      rw [starIdx] at h
      by_cases hc : c = '*' ∧ c2 = '*'
      · simp only [if_pos hc, Option.some.injEq] at h
        simp only [List.length_cons]
        omega
      · simp only [if_neg hc, Option.map_eq_some'] at h
        obtain ⟨j, hj, rfl⟩ := h
        have hle := ih j hj
        simp only [List.length_cons] at hle ⊢
        omega

/-- The `while (remaining.includes('**'))` loop of the bullet branch:
each matched pair emits a text part and a strong part and continues on the
strictly shorter suffix; an unmatched opener breaks with the whole remaining
text; the final `parts.push(remaining)` is the trailing text part. -/
def parseBold (cs : List Char) : List MdPart :=
  match _h1 : starIdx cs with
  | none => [.text (String.mk cs)]
  | some i1 =>
    match _h2 : starIdx (cs.drop (i1 + 2)) with
    | none => [.text (String.mk cs)]
    | some j =>
      .text (String.mk (cs.take i1)) ::
        .strong (String.mk ((cs.drop (i1 + 2)).take j)) ::
          parseBold (cs.drop (i1 + 2 + j + 2))
termination_by cs.length
decreasing_by
  have hb := starIdx_bound cs i1 _h1
  simp [List.length_drop]
  omega

/-- The element `renderMarkdownLines` produces for one line. -/
def renderLine (line : String) : MdNode :=
  if strStarts line "### " then .h3 (String.mk (line.toList.drop 4))
  else if strStarts line "## " then .h2 (String.mk (line.toList.drop 3))
  else if strStarts line "- " then .bullet (parseBold (line.toList.drop 2))
  else if jsTrim line = "" then .br
  else .p line

/-- `renderMarkdownLines(md)`. -/
def renderMarkdownLines (md : String) : List MdNode :=
  (splitOnChar '\n' md).map renderLine

/-- `request` as a function of the stream of available fetch settlements:
the source body contains a single `await fetch(...)`, so only the first
settlement is ever consumed. -/
def requestOnce (path : String) (opts : ReqOptions) (fetches : Nat → FetchOutcome) : RequestResult :=
  request path opts (fetches 0)

/-- A form-state in which the structured odds field for team A at betano
holds the text `Infinity`. -/
def cexValues : String → Option String :=
  fun k => if k = "match_winner_betano_a" then some "Infinity" else none

/-! ## Theorems for the claims -/

/-- Membership in an insertion is membership in the parts. -/
theorem mem_insertSorted (x y : String) (l : List String) :
    y ∈ insertSorted x l ↔ y = x ∨ y ∈ l := by
  induction l with
  | nil => simp [insertSorted]
  | cons a as ih =>
    simp only [insertSorted]
    by_cases h : strLeB x a
    · simp [h, List.mem_cons]
    · simp [h, List.mem_cons, ih]
      tauto

/-- Sorting the keys does not change membership. -/
theorem mem_sortStrings (y : String) (l : List String) : y ∈ sortStrings l ↔ y ∈ l := by
  induction l with
  | nil => simp [sortStrings]
  | cons a as ih => simp [sortStrings, mem_insertSorted, ih]

/-- C3: the formatting helpers `formatBoType`, `resolveBoType`,
`inferSeriesFormatFromScoreProbs` and `seriesChartData` are deterministic:
two evaluations on equal arguments return equal results.  (Their embeddings
are functions of their arguments alone, which is what makes this
formalization of the source's purity possible at all.) -/
theorem formatting_helpers_deterministic :
    (∀ v w : JSVal, v = w → formatBoType v = formatBoType w) ∧
    (∀ b1 b2 x1 x2 y1 y2 : JSVal, b1 = b2 → x1 = x2 → y1 = y2 →
      resolveBoType b1 x1 y1 = resolveBoType b2 x2 y2) ∧
    (∀ p1 p2 : Option ScoreProbs, p1 = p2 →
      inferSeriesFormatFromScoreProbs p1 = inferSeriesFormatFromScoreProbs p2) ∧
    (∀ p1 p2 : Option ScoreProbs, ∀ f1 f2 : String, p1 = p2 → f1 = f2 →
      seriesChartData p1 f1 = seriesChartData p2 f2) :=
  ⟨fun _ _ h => by rw [h],
   fun _ _ _ _ _ _ h1 h2 h3 => by rw [h1, h2, h3],
   fun _ _ h => by rw [h],
   fun _ _ _ _ h1 h2 => by rw [h1, h2]⟩

/-- Witness for C3 at concrete inputs. -/
theorem formatting_helpers_deterministic_witness :
    formatBoType (JSVal.str "bo5") = formatBoType (JSVal.str "bo5") ∧
    seriesChartData none "Bo3" = seriesChartData none "Bo3" :=
  ⟨formatting_helpers_deterministic.1 (JSVal.str "bo5") (JSVal.str "bo5") rfl,
   formatting_helpers_deterministic.2.2.2 none none "Bo3" "Bo3" rfl rfl⟩

/-- C4: `formatBoType` returns exactly one of "Bo3", "Bo5", "Bo?"; "Bo?" on
null, undefined or the empty string; otherwise "Bo5" when the lowercased
string form contains the character 5, else "Bo3" when it contains 3, else
"Bo?". -/
theorem formatBoType_cases (v : JSVal) :
    (formatBoType v = "Bo3" ∨ formatBoType v = "Bo5" ∨ formatBoType v = "Bo?") ∧
    ((v = JSVal.null ∨ v = JSVal.undef ∨ v = JSVal.str "") → formatBoType v = "Bo?") ∧
    (¬(v = JSVal.null ∨ v = JSVal.undef ∨ v = JSVal.str "") →
      formatBoType v =
        (if strContainsChar (toLowerStr (jsToString v)) '5' then "Bo5"
         else if strContainsChar (toLowerStr (jsToString v)) '3' then "Bo3"
         else "Bo?")) := by
  unfold formatBoType
  by_cases h : v = JSVal.null ∨ v = JSVal.undef ∨ v = JSVal.str ""
  · exact ⟨by simp [h], fun _ => by simp [h], fun hc => absurd h hc⟩
  · refine ⟨?_, fun hc => absurd hc h, fun _ => by simp [h]⟩
    simp only [if_neg h]
    by_cases h5 : strContainsChar (toLowerStr (jsToString v)) '5'
    · simp [h5]
    · by_cases h3 : strContainsChar (toLowerStr (jsToString v)) '3' <;> simp [h5, h3]

/-- Witness for C4 at concrete inputs. -/
theorem formatBoType_cases_witness :
    formatBoType JSVal.null = "Bo?" ∧ formatBoType (JSVal.str "Bo5") = "Bo5" := by
  refine ⟨(formatBoType_cases JSVal.null).2.1 (Or.inl rfl), ?_⟩
  have h := (formatBoType_cases (JSVal.str "Bo5")).2.2 (by simp)
  rw [h]
  decide

/-- C5: `resolveBoType` returns `formatBoType boType` when that is not
"Bo?"; otherwise, when both scores convert to finite numbers it returns
"Bo5" exactly when their sum exceeds 3 and "Bo3" otherwise, and "Bo?" when
either score fails to convert to a finite number. -/
theorem resolveBoType_spec (b s1 s2 : JSVal) :
    (formatBoType b ≠ "Bo?" → resolveBoType b s1 s2 = formatBoType b) ∧
    (formatBoType b = "Bo?" →
      (∀ q1 q2 : ℚ, jsToNumber s1 = JSNum.finite q1 → jsToNumber s2 = JSNum.finite q2 →
        resolveBoType b s1 s2 = if q1 + q2 > 3 then "Bo5" else "Bo3") ∧
      (((jsToNumber s1).isFinite = false ∨ (jsToNumber s2).isFinite = false) →
        resolveBoType b s1 s2 = "Bo?")) := by
  unfold resolveBoType
  by_cases hA : formatBoType b = "Bo?"
  · refine ⟨fun hc => absurd hA hc, fun _ => ⟨?_, ?_⟩⟩
    · intro q1 q2 h1 h2
      simp [hA, h1, h2]
    · intro hf
      cases hn1 : jsToNumber s1 <;> cases hn2 : jsToNumber s2 <;>
        simp_all [JSNum.isFinite, hA]
  · exact ⟨fun _ => by simp [hA], fun hc => absurd hc hA⟩

/-- Witness for C5 at concrete inputs. -/
theorem resolveBoType_spec_witness :
    resolveBoType (JSVal.str "bo3") JSVal.null JSVal.null = "Bo3" ∧
    resolveBoType JSVal.null (JSVal.str "3") (JSVal.str "1") = "Bo5" ∧
    resolveBoType JSVal.null (JSVal.str "x") JSVal.null = "Bo?" := by
  refine ⟨?_, ?_, ?_⟩
  · have h := (resolveBoType_spec (JSVal.str "bo3") JSVal.null JSVal.null).1 (by decide)
    rw [h]
    decide
  · have h :=
      ((resolveBoType_spec JSVal.null (JSVal.str "3") (JSVal.str "1")).2 (by decide)).1 3 1
        (by simp [jsToNumber, jsStringToNumber, jsTrim, parseUnsignedDec, takeDigits,
              parseExpPart, digitsToNat])
        (by simp [jsToNumber, jsStringToNumber, jsTrim, parseUnsignedDec, takeDigits,
              parseExpPart, digitsToNat])
    rw [h]
    norm_num
  · exact ((resolveBoType_spec JSVal.null (JSVal.str "x") JSVal.null).2 (by decide)).2
      (Or.inl (by simp [jsToNumber, jsStringToNumber, jsTrim, parseUnsignedDec, takeDigits,
        parseExpPart, JSNum.isFinite]))

/-- C6: `seriesChartData` lists the canonical scorelines of the format that
carry a non-null value, in canonical order, then the remaining keys in
lexicographic order; probabilities are the value times 100 rounded to two
decimals; a canonical scoreline with a null value is omitted entirely; a
missing or non-object `scoreProbs` yields the empty list. -/
theorem seriesChartData_characterization :
    (∀ format : String, seriesChartData none format = []) ∧
    (∀ entries : ScoreProbs, ∀ format : String,
      seriesChartData (some entries) format =
        ((((if format = "Bo5" then ["3-0", "3-1", "3-2", "2-3", "1-3", "0-3"]
            else ["2-0", "2-1", "1-2", "0-2"]).filter
              fun s => (objLookup entries s).isSome) ++
          sortStrings ((entries.map Prod.fst).filter fun s =>
            !(if format = "Bo5" then ["3-0", "3-1", "3-2", "2-3", "1-3", "0-3"]
              else ["2-0", "2-1", "1-2", "0-2"]).contains s)).map
          fun score =>
            ⟨score, roundFixed (((objLookup entries score).getD 0) * 100) 2⟩)) ∧
    (∀ entries : ScoreProbs, ∀ format s,
      s ∈ (if format = "Bo5" then BO5_ORDER else BO3_ORDER) →
      objLookup entries s = none →
      ∀ p ∈ seriesChartData (some entries) format, p.score ≠ s) ∧
    (∀ entries : ScoreProbs, ∀ format s,
      s ∉ (if format = "Bo5" then BO5_ORDER else BO3_ORDER) →
      s ∈ entries.map Prod.fst →
      objLookup entries s = none →
      ChartPoint.mk s 0 ∈ seriesChartData (some entries) format) := by
  refine ⟨fun _ => rfl, fun entries format => rfl, ?_, ?_⟩
  · intro entries format s hcon hnone p hp
    simp only [seriesChartData, List.mem_map, List.mem_append, List.mem_filter,
      mem_sortStrings, BO5_ORDER, BO3_ORDER] at hp
    obtain ⟨a, ha, rfl⟩ := hp
    simp only [ne_eq]
    intro heq
    rw [heq] at ha
    rcases ha with ⟨_, hsome⟩ | ⟨_, hnotin⟩
    · rw [hnone] at hsome
      simp at hsome
    · simp only [Bool.not_eq_eq_eq_not, Bool.not_true] at hnotin
      simp only [BO5_ORDER, BO3_ORDER] at hcon
      rcases hcon' : (if format = "Bo5" then true else false) with _ | _
      all_goals simp_all
  · intro entries format s hcon hkey hnone
    simp only [seriesChartData, List.mem_map]
    refine ⟨s, ?_, ?_⟩
    · simp only [List.mem_append, List.mem_filter, mem_sortStrings]
      right
      refine ⟨hkey, ?_⟩
      simp only [BO5_ORDER, BO3_ORDER] at hcon
      simp only [List.elem_eq_mem, Bool.not_eq_true', decide_eq_false_iff_not]
      simpa [BO5_ORDER, BO3_ORDER] using hcon
    · rw [hnone]
      simp only [Option.getD_none, ChartPoint.mk.injEq]
      refine ⟨trivial, ?_⟩
      norm_num [roundFixed]

/-- Witness for C6 at concrete inputs. -/
theorem seriesChartData_characterization_witness :
    seriesChartData none "Bo3" = [] ∧
    ChartPoint.mk "zz" 0 ∈ seriesChartData (some [("zz", none)]) "Bo3" :=
  ⟨seriesChartData_characterization.1 "Bo3",
   seriesChartData_characterization.2.2.2 [("zz", none)] "Bo3" "zz" (by decide) (by decide) rfl⟩

/-- C7: when `loadData` completes, either all three requests succeeded and
the events, config and matches state are set from the three payloads (with
the array-or-`items` coercion), or at least one failed and the error is a
non-empty message while events and matches are reset to empty arrays; the
loading flag is false either way. -/
theorem loadData_outcomes (r1 r2 r3 : RequestResult) (s : DashState) :
    (loadData r1 r2 r3 s).loading = false ∧
    (∀ ev cf ms : JVal, r1 = .success ev → r2 = .success cf → r3 = .success ms →
      (loadData r1 r2 r3 s).events = listOrItems ev ∧
      (loadData r1 r2 r3 s).config = some cf ∧
      (loadData r1 r2 r3 s).matchList = listOrItems ms ∧
      (loadData r1 r2 r3 s).error = "") ∧
    ((r1.isSuccess = false ∨ r2.isSuccess = false ∨ r3.isSuccess = false) →
      (loadData r1 r2 r3 s).error ≠ "" ∧
      (loadData r1 r2 r3 s).events = JVal.jarr [] ∧
      (loadData r1 r2 r3 s).matchList = JVal.jarr []) := by
  cases r1 <;> cases r2 <;> cases r3 <;>
    simp [loadData, RequestResult.payloadOf, RequestResult.isSuccess, firstFailure,
      RequestResult.errMessage] <;>
    split_ifs <;> simp_all

/-- Witness for C7 at concrete inputs. -/
theorem loadData_outcomes_witness :
    (loadData (.success (.jarr [])) (.success .jnull) (.success (.jarr []))
        ⟨.jarr [], none, .jarr [], false, ""⟩).config = some JVal.jnull ∧
    (loadData (.timeoutError "t") (.success .jnull) (.success (.jarr []))
        ⟨.jarr [], none, .jarr [], false, ""⟩).error ≠ "" :=
  ⟨((loadData_outcomes (.success (.jarr [])) (.success .jnull) (.success (.jarr []))
      ⟨.jarr [], none, .jarr [], false, ""⟩).2.1 (.jarr []) .jnull (.jarr []) rfl rfl rfl).2.1,
   ((loadData_outcomes (.timeoutError "t") (.success .jnull) (.success (.jarr []))
      ⟨.jarr [], none, .jarr [], false, ""⟩).2.2 (Or.inl rfl)).1⟩

/-- C8: the edges table displays exactly the backend analysis fields after
the fixed display transformation: probabilities via `pct` (the field times
100, one decimal place, a trailing percent sign, with missing/null fields
rendered "0.0%"), odds with two decimal places; and each rendered cell is a
function of its own backend field alone. -/
theorem edgeRow_display (e e2 : SingleEdge) :
    ((edgeRow e).pImpl = pct e.p_impl ∧ (edgeRow e).pModel = pct e.p_model ∧
      (edgeRow e).edgePct = pct e.edge ∧ (edgeRow e).odds = (jsToNumber e.odds).toFixed 2) ∧
    (pct JSVal.null = "0.0%" ∧ pct JSVal.undef = "0.0%") ∧
    (∀ q : ℚ, pct (JSVal.num (JSNum.finite q)) = fixedString (q * 100) 1 ++ "%") ∧
    ((e.p_impl = e2.p_impl → (edgeRow e).pImpl = (edgeRow e2).pImpl) ∧
      (e.p_model = e2.p_model → (edgeRow e).pModel = (edgeRow e2).pModel) ∧
      (e.edge = e2.edge → (edgeRow e).edgePct = (edgeRow e2).edgePct) ∧
      (e.odds = e2.odds → (edgeRow e).odds = (edgeRow e2).odds)) := by
  have hzero : (JSNum.finite ((0 : ℚ) * 100)).toFixed 1 = "0.0" := by
    simp only [JSNum.toFixed, fixedString]
    have h1 : |(0 : ℚ) * 100| * (10 : ℚ) ^ (1 : ℕ) + 1 / 2 = 1 / 2 := by norm_num
    have h2 : (⌊(1 : ℚ) / 2⌋ : ℤ) = 0 := by norm_num
    have h3 : ¬((0 : ℚ) * 100 < 0) := by norm_num
    rw [h1, h2]
    simp only [if_neg h3]
    decide
  refine ⟨⟨rfl, rfl, rfl, rfl⟩, ⟨?_, ?_⟩, ?_, ?_⟩
  · show (JSNum.finite ((0 : ℚ) * 100)).toFixed 1 ++ "%" = "0.0%"
    rw [hzero]
    decide
  · show (JSNum.finite ((0 : ℚ) * 100)).toFixed 1 ++ "%" = "0.0%"
    rw [hzero]
    decide
  · intro q
    by_cases hq : q = 0
    · subst hq
      show (JSNum.finite ((0 : ℚ) * 100)).toFixed 1 ++ "%" = fixedString (0 * 100) 1 ++ "%"
      rfl
    · simp only [pct, jsTruthy, jsToNumber, JSNum.toFixed]
      simp [hq]
  · exact ⟨fun h => by simp [edgeRow, h], fun h => by simp [edgeRow, h],
      fun h => by simp [edgeRow, h], fun h => by simp [edgeRow, h]⟩

/-- Witness for C8 at concrete inputs. -/
theorem edgeRow_display_witness :
    pct JSVal.null = "0.0%" ∧
    (edgeRow ⟨"m", "s", "b", JSVal.null, JSVal.null, JSVal.null, JSVal.null, JSVal.null, "r",
        JSVal.null⟩).pImpl = "0.0%" := by
  have h := edgeRow_display
    ⟨"m", "s", "b", JSVal.null, JSVal.null, JSVal.null, JSVal.null, JSVal.null, "r", JSVal.null⟩
    ⟨"m", "s", "b", JSVal.null, JSVal.null, JSVal.null, JSVal.null, JSVal.null, "r", JSVal.null⟩
  refine ⟨h.2.1.1, ?_⟩
  rw [h.1.1, h.2.1.1]

/-- C10: `renderMarkdownLines` is total and yields exactly one element per
newline-separated line, and the bold-parsing loop either consumes a matched
pair of `**` markers and continues on a strictly shorter remaining string,
or stops as soon as no closing `**` exists. -/
theorem renderMarkdownLines_total :
    (∀ md : String, (renderMarkdownLines md).length = (splitOnChar '\n' md).length) ∧
    (∀ cs : List Char, ∀ i1, starIdx cs = some i1 → starIdx (cs.drop (i1 + 2)) = none →
      parseBold cs = [MdPart.text (String.mk cs)]) ∧
    (∀ cs : List Char, ∀ i1 j, starIdx cs = some i1 → starIdx (cs.drop (i1 + 2)) = some j →
      parseBold cs =
        MdPart.text (String.mk (cs.take i1)) ::
          MdPart.strong (String.mk ((cs.drop (i1 + 2)).take j)) ::
            parseBold (cs.drop (i1 + 2 + j + 2)) ∧
      (cs.drop (i1 + 2 + j + 2)).length < cs.length) := by
  refine ⟨fun md => by simp [renderMarkdownLines], ?_, ?_⟩
  · intro cs i1 h1 h2
    rw [parseBold.eq_def]
    split
    · rfl
    · next i1' heq =>
      rw [heq] at h1
      injection h1 with hh
      subst hh
      split
      · rfl
      · next j heq2 =>
        rw [heq2] at h2
        cases h2
  · intro cs i1 j h1 h2
    have hb := starIdx_bound cs i1 h1
    constructor
    · rw [parseBold.eq_def]
      split
      · next heq => rw [heq] at h1; cases h1
      · next i1' heq =>
        rw [heq] at h1
        injection h1 with hh
        subst hh
        split
        · next heq2 => rw [heq2] at h2; cases h2
        · next j' heq2 =>
          rw [heq2] at h2
          injection h2 with hj
          subst hj
          rfl
    · simp only [List.length_drop]
      omega

/-- Witness for C10 at concrete inputs. -/
theorem renderMarkdownLines_total_witness :
    parseBold ['a', '*', '*'] = [MdPart.text (String.mk ['a', '*', '*'])] ∧
    (['x', '*', '*', 'b', '*', '*'].drop (1 + 2 + 1 + 2)).length <
      ['x', '*', '*', 'b', '*', '*'].length :=
  ⟨renderMarkdownLines_total.2.1 ['a', '*', '*'] 1 (by decide) (by decide),
   (renderMarkdownLines_total.2.2 ['x', '*', '*', 'b', '*', '*'] 1 1
      (by decide) (by decide)).2⟩

/-- A batch line the parser keeps passed the finiteness-and-threshold check. -/
theorem parseBatchLine_kept (line : String) (e : OddsEntry) (h : parseBatchLine line = some e) :
    e.odds_value.isFinite = true ∧ e.odds_value.gtOne = true := by
  simp only [parseBatchLine] at h
  split_ifs at h with hlen hchk hmap
  all_goals
    first
      | exact Option.noConfusion h
      | · simp only [Bool.or_eq_true, Bool.not_eq_true', not_or, Bool.not_eq_false] at hchk
          obtain ⟨hfin, hgt⟩ := hchk
          rw [Option.some_inj] at h
          subst h
          exact ⟨hfin, hgt⟩

/-- Membership in a conditional singleton forces the condition. -/
theorem mem_ite_singleton {α : Type} {b : Bool} {x e : α}
    (h : e ∈ if b = true then [x] else ([] : List α)) : b = true ∧ e = x := by
  split at h
  · next hb => exact ⟨hb, by simpa using h⟩
  · simp at h

/-- Every structured-form entry passed its `> 1` guard. -/
theorem collectStructured_gtOne (values : String → Option String) (teamA teamB : String)
    (mapList : List MapSlot) :
    ∀ e ∈ collectStructuredEntries values teamA teamB mapList, e.odds_value.gtOne = true := by
  intro e he
  simp only [collectStructuredEntries, List.mem_append, List.mem_flatMap] at he
  rcases he with ⟨book, _, h | h⟩ | ⟨map, _, book, _, ((((h | h) | h) | h) | h) | h⟩
  all_goals
    obtain ⟨hb, rfl⟩ := mem_ite_singleton h
    exact hb

/-- C9 counterexample: with the text `Infinity` typed into the structured
form's betano team-A series-winner field, `saveStructured` submits an entry
whose `odds_value` is Infinity — numeric and `> 1` in JS, but not finite,
contradicting the claim that every submitted entry has a finite odds value. -/
theorem oddsEntries_counterexample :
    saveStructured "7" cexValues "A" "B" [] =
      SaveAction.callSaveOdds "7"
        [{ bookmaker := "betano", market_type := "match_winner", selection := "A",
           odds_value := JSNum.posInf, map_number := none }] ∧
    JSNum.posInf.isFinite = false :=
  ⟨rfl, rfl⟩

/-- C9 amended: every batch-parsed entry has a finite numeric odds value
strictly greater than 1, and every structured-form entry has an odds value
greater than 1 in JS ordering (which also admits Infinity, so structured
entries need not be finite); batch lines with fewer than four tokens, or
whose final token does not convert to a finite number greater than 1, are
silently dropped; and when no entry qualifies, no `saveOdds` call is made —
an error message is shown instead. -/
theorem oddsEntries_amended (batchText matchId line : String)
    (values : String → Option String) (teamA teamB : String) (mapList : List MapSlot) :
    (∀ e ∈ parseBatch batchText, e.odds_value.isFinite = true ∧ e.odds_value.gtOne = true) ∧
    (∀ e ∈ collectStructuredEntries values teamA teamB mapList, e.odds_value.gtOne = true) ∧
    ((jsSplitWs line).length < 4 ∨
      (jsStringToNumber ((jsSplitWs line).getLastD "")).isFinite = false ∨
      (jsStringToNumber ((jsSplitWs line).getLastD "")).gtOne = false →
      parseBatchLine line = none) ∧
    (parseBatch batchText = [] →
      saveBatch matchId batchText = .showError "Nenhuma odd valida no batch paste.") ∧
    (collectStructuredEntries values teamA teamB mapList = [] →
      saveStructured matchId values teamA teamB mapList =
        .showError "Preencha pelo menos uma odd valida.") := by
  refine ⟨?_, collectStructured_gtOne values teamA teamB mapList, ?_, ?_, ?_⟩
  · intro e he
    simp only [parseBatch, List.mem_filterMap] at he
    obtain ⟨l, _, hl⟩ := he
    exact parseBatchLine_kept l e hl
  · intro hdrop
    simp only [parseBatchLine]
    split_ifs with h1 h2
    · rfl
    · rfl
    all_goals
      exfalso
      simp only [Bool.or_eq_true, Bool.not_eq_true', not_or, Bool.not_eq_false] at h2
      rcases hdrop with h | h | h
      · exact h1 h
      · simp only [List.getLastD_eq_getLast?] at h h2
        rw [h2.1] at h
        cases h
      · simp only [List.getLastD_eq_getLast?] at h h2
        rw [h2.2] at h
        cases h
  · intro h
    unfold saveBatch
    rw [h]
    rfl
  · intro h
    unfold saveStructured
    rw [h]
    rfl

/-- Witness for C9's amended claim at concrete inputs. -/
theorem oddsEntries_amended_witness :
    parseBatchLine "a b" = none ∧
    saveBatch "7" "" = SaveAction.showError "Nenhuma odd valida no batch paste." ∧
    saveStructured "7" (fun _ => none) "A" "B" [] =
      SaveAction.showError "Preencha pelo menos uma odd valida." ∧
    (OddsEntry.mk "betano" "match_winner" "A" (JSNum.finite 2) none).odds_value.gtOne = true := by
  refine ⟨?_, ?_, ?_, ?_⟩
  · exact (oddsEntries_amended "" "7" "a b" (fun _ => none) "A" "B" []).2.2.1
      (Or.inl (by decide))
  · exact (oddsEntries_amended "" "7" "" (fun _ => none) "A" "B" []).2.2.2.1 rfl
  · exact (oddsEntries_amended "" "7" "" (fun _ => none) "A" "B" []).2.2.2.2 rfl
  · have k1 : ("match_winner_" ++ "betano" ++ "_a" : String) = "match_winner_betano_a" := rfl
    have k2 : ("match_winner_" ++ "betano" ++ "_b" : String) = "match_winner_betano_b" := rfl
    have k3 : ("match_winner_" ++ "bet365" ++ "_a" : String) = "match_winner_bet365_a" := rfl
    have k4 : ("match_winner_" ++ "bet365" ++ "_b" : String) = "match_winner_bet365_b" := rfl
    have hva : fieldNum (fun k => if k = "match_winner_betano_a" then some "2" else none)
        ("match_winner_" ++ "betano" ++ "_a") = JSNum.finite 2 := by
      simp [fieldNum, k1, jsToNumber, jsStringToNumber, jsTrim, parseUnsignedDec, takeDigits,
        parseExpPart, digitsToNat]
    have hvb : fieldNum (fun k => if k = "match_winner_betano_a" then some "2" else none)
        ("match_winner_" ++ "betano" ++ "_b") = JSNum.nan := by
      simp [fieldNum, k2, jsToNumber]
    have hvc : fieldNum (fun k => if k = "match_winner_betano_a" then some "2" else none)
        ("match_winner_" ++ "bet365" ++ "_a") = JSNum.nan := by
      simp [fieldNum, k3, jsToNumber]
    have hvd : fieldNum (fun k => if k = "match_winner_betano_a" then some "2" else none)
        ("match_winner_" ++ "bet365" ++ "_b") = JSNum.nan := by
      simp [fieldNum, k4, jsToNumber]
    exact (oddsEntries_amended "" "7" ""
      (fun k => if k = "match_winner_betano_a" then some "2" else none) "A" "B" []).2.1
      (OddsEntry.mk "betano" "match_winner" "A" (JSNum.finite 2) none)
      (by
        norm_num [collectStructuredEntries, BOOKMAKERS, hva, hvb, hvc, hvd, JSNum.gtOne])

/-- C1: every API endpoint delegates to the single `request`, which applies
the fixed 30000 ms timeout (a fetch that has not settled by the deadline is
aborted and surfaces as the timeout-message error), throws a uniform error
carrying the HTTP status and the decoded payload (null for non-JSON bodies)
on a non-ok response — the message taken from `payload.detail`, else
`payload.error`, else `Request failed (<status>)` — and returns the decoded
payload (null when not JSON) on an ok response. -/
theorem request_uniform (r : ApiRequest) :
    REQUEST_TIMEOUT_MS = 30000 ∧
    (∀ settleAt : Nat, ∀ settled : FetchOutcome, settleAt > REQUEST_TIMEOUT_MS →
      runRequest r (fetchRace settleAt settled) = .timeoutError timeoutMsg) ∧
    (∀ status : Nat, ∀ ct : Option String, ∀ j : JVal, ctIsJson ct = true →
      runRequest r (.response false status ct (.ok j)) =
        .httpError (httpErrorMessage j status) status j) ∧
    (∀ status : Nat, ∀ ct : Option String, ∀ body : Except String JVal, ctIsJson ct = false →
      runRequest r (.response false status ct body) =
        .httpError (httpErrorMessage .jnull status) status .jnull) ∧
    (∀ payload : JVal, ∀ status : Nat, ∀ m : String,
      jvGet payload "detail" = some (.jstr m) → m ≠ "" →
      httpErrorMessage payload status = m) ∧
    (∀ payload : JVal, ∀ status : Nat, ∀ m : String,
      jvTruthy (jvGet payload "detail") = false →
      jvGet payload "error" = some (.jstr m) → m ≠ "" →
      httpErrorMessage payload status = m) ∧
    (∀ payload : JVal, ∀ status : Nat,
      jvTruthy (jvGet payload "detail") = false →
      jvTruthy (jvGet payload "error") = false →
      httpErrorMessage payload status = "Request failed (" ++ toString status ++ ")") ∧
    (∀ status : Nat, ∀ ct : Option String, ∀ j : JVal, ctIsJson ct = true →
      runRequest r (.response true status ct (.ok j)) = .success j) ∧
    (∀ status : Nat, ∀ ct : Option String, ∀ body : Except String JVal, ctIsJson ct = false →
      runRequest r (.response true status ct body) = .success .jnull) := by
  refine ⟨rfl, ?_, ?_, ?_, ?_, ?_, ?_, ?_, ?_⟩
  · intro settleAt settled hgt
    simp only [fetchRace, if_pos hgt, runRequest, request]
    rfl
  · intro status ct j hct
    simp [runRequest, request, hct]
  · intro status ct body hct
    simp [runRequest, request, hct]
  · intro payload status m hget hm
    simp [httpErrorMessage, hget, jvTruthy, hm]
  · intro payload status m hdet hget hm
    have ht : jvTruthy (some (JVal.jstr m)) = true := by simp [jvTruthy, hm]
    simp [httpErrorMessage, hdet, hget, ht]
  · intro payload status hdet herr
    simp [httpErrorMessage, hdet, herr]
  · intro status ct j hct
    simp [runRequest, request, hct]
  · intro status ct body hct
    simp [runRequest, request, hct]

/-- Witness for C1 at concrete inputs. -/
theorem request_uniform_witness :
    runRequest api.getMaps (fetchRace 30001 (.response true 200 none (.ok .jnull))) =
      .timeoutError timeoutMsg ∧
    runRequest api.getMaps
        (.response false 404 (some "application/json")
          (.ok (.jobj [("detail", .jstr "boom")]))) =
      .httpError "boom" 404 (.jobj [("detail", .jstr "boom")]) ∧
    runRequest api.getConfig (.response true 200 (some "application/json") (.ok (.jbool true))) =
      .success (.jbool true) := by
  refine ⟨?_, ?_, ?_⟩
  · exact (request_uniform api.getMaps).2.1 30001 (.response true 200 none (.ok .jnull))
      (by decide)
  · have h := (request_uniform api.getMaps).2.2.1 404 (some "application/json")
      (.jobj [("detail", .jstr "boom")]) (by decide)
    have hm := (request_uniform api.getMaps).2.2.2.2.1 (.jobj [("detail", .jstr "boom")]) 404
      "boom" rfl (by decide)
    rw [h, hm]
  · exact (request_uniform api.getConfig).2.2.2.2.2.2.2.1 200 (some "application/json")
      (.jbool true) (by decide)

/-- C2: each `request` invocation consumes exactly the first fetch
settlement — the result depends on no later one, so there is no retry — and
it returns normally exactly when that fetch settled as a clean ok response;
every failing settlement (rejection, non-ok status, decode error) surfaces
as a thrown error, never as a fallback return value. -/
theorem request_single_fetch :
    (∀ path : String, ∀ opts : ReqOptions, ∀ f g : Nat → FetchOutcome, f 0 = g 0 →
      requestOnce path opts f = requestOnce path opts g) ∧
    (∀ path : String, ∀ opts : ReqOptions, ∀ o : FetchOutcome,
      (request path opts o).isSuccess = o.isCleanOk) := by
  refine ⟨fun path opts f g h => by simp [requestOnce, h], ?_⟩
  intro path opts o
  cases o with
  | fetchRejected name msg =>
    simp only [request, FetchOutcome.isCleanOk]
    split_ifs <;> rfl
  | response ok status ct body =>
    simp only [request, FetchOutcome.isCleanOk]
    by_cases hct : ctIsJson ct
    · cases body with
      | error e => simp [hct, RequestResult.isSuccess, Except.isOk, Except.toBool]
      | ok j =>
        by_cases hok : ok <;>
          simp [hct, hok, RequestResult.isSuccess, Except.isOk, Except.toBool]
    · by_cases hok : ok <;> simp [hct, hok, RequestResult.isSuccess]

/-- Witness for C2 at concrete inputs. -/
theorem request_single_fetch_witness :
    requestOnce "/api/maps" defaultOpts (fun _ => .fetchRejected "TypeError" "failed") =
      requestOnce "/api/maps" defaultOpts
        (fun n => if n = 0 then .fetchRejected "TypeError" "failed"
          else .response true 200 none (.ok .jnull)) ∧
    (request "/api/maps" defaultOpts (.fetchRejected "TypeError" "failed")).isSuccess = false := by
  constructor
  · exact request_single_fetch.1 "/api/maps" defaultOpts
      (fun _ => .fetchRejected "TypeError" "failed")
      (fun n => if n = 0 then .fetchRejected "TypeError" "failed"
        else .response true 200 none (.ok .jnull)) rfl
  · rw [request_single_fetch.2 "/api/maps" defaultOpts (.fetchRejected "TypeError" "failed")]
    rfl

end VctTerminal
